import Mathlib

/-!
Verification development for a NestJS draw-and-guess game server.

The embedding models `GameService` (room registry, player roster, stroke log,
round/word state) and the two `GameGateway` handlers relevant to the claims
(`onJoin`, `onDraw`).  JavaScript `Map`s with insertion order are modelled as
association lists; JS `undefined`-able string fields as `Option String`; JS
truthiness of such fields (where both `undefined` and `""` are falsy) is made
explicit via `strTruthy`; the random word draw `Math.floor(Math.random()*len)`
is modelled as an oracle argument `pick : Nat` reduced mod the word-list length.
-/

namespace CatchMind

/-- Word pool `mockWords` from game.service.ts. -/
def mockWords : List String :=
  ["사과", "바나나", "컴퓨터", "자동차", "커피", "의자", "책상", "휴대폰", "자전거", "카메라"]

/-- The word selected for a given random draw:
`mockWords[Math.floor(Math.random() * mockWords.length)]` with the random draw
supplied as the oracle `pick`. -/
def pickWord (pick : Nat) : String :=
  mockWords.getD (pick % mockWords.length) ""

/-- Player record: `{ socketId, name, score }`. Scores only ever start at 0 and
are incremented by 10, so `Nat` is adequate. -/
structure Player where
  socketId : String
  name : String
  score : Nat
deriving DecidableEq

/-- Opaque drawing payload (`shape: any`); its structure is irrelevant to the
claims, only identity matters. -/
abbrev Shape := Nat

/-- Room record from game.service.ts: players is a `Map<string, Player>`
modelled as an insertion-ordered association list keyed by `socketId`. -/
structure Room where
  id : String
  players : List Player
  shapes : List Shape
  currentWord : Option String
  roundOwner : Option String
deriving DecidableEq

/-- JS truthiness of a `string | undefined` value: `undefined` and `""` are
falsy, every other string is truthy. -/
def strTruthy : Option String → Bool
  | none => false
  | some s => s != ""

/-- `room.players.get(socketId)` (first entry with the given key). -/
def playersGet (ps : List Player) (sid : String) : Option Player :=
  ps.find? (fun p => p.socketId == sid)

/-- `room.players.set(p.socketId, p)`: replace the entry holding this key in
place (JS `Map.set` keeps the original insertion position) or append. -/
def playersSet : List Player → Player → List Player
  | [], p => [p]
  | q :: rest, p =>
      if q.socketId == p.socketId then p :: rest else q :: playersSet rest p

/-- `room.players.delete(socketId)`: drop the entry with the given key
(keys are unique in a JS `Map`, so filtering is the same as deleting one). -/
def playersDelete (ps : List Player) (sid : String) : List Player :=
  ps.filter (fun p => p.socketId != sid)

/-- JS `Array.prototype.findIndex`, with `none` standing for `-1`. -/
def listFindIdx? (f : Player → Bool) : List Player → Option Nat
  | [] => none
  | q :: rest => if f q then some 0 else (listFindIdx? f rest).map (fun n => n + 1)

/-- Model of JS `String.prototype.trim` over the character list. -/
def jsTrim (s : String) : String :=
  String.mk (((s.data.dropWhile Char.isWhitespace).reverse.dropWhile Char.isWhitespace).reverse)

/-- `s.trim().toLowerCase()` — the normalization applied to both the secret and
the guess in `checkGuess`. -/
def normalizeGuess (s : String) : String :=
  String.mk ((jsTrim s).data.map Char.toLower)

/-- The whole `GameService` state: `private rooms = new Map<string, Room>()`. -/
structure GameState where
  rooms : String → Option Room

/-- The state with no rooms (freshly constructed service). -/
def initState : GameState :=
  { rooms := fun _ => none }

/-- `this.rooms.set(roomId, room)`. -/
def setRoom (st : GameState) (roomId : String) (room : Room) : GameState :=
  { rooms := fun r => if r = roomId then some room else st.rooms r }

/-- The room freshly created by `ensureRoom`. -/
def emptyRoom (roomId : String) : Room :=
  { id := roomId, players := [], shapes := [], currentWord := none, roundOwner := none }

/-- `ensureRoom(roomId)`: return the existing room, or create (and register)
one with empty players, empty shapes, and unset word/owner. -/
def ensureRoom (st : GameState) (roomId : String) : GameState × Room :=
  match st.rooms roomId with
  | some room => (st, room)
  | none => (setRoom st roomId (emptyRoom roomId), emptyRoom roomId)

/-- Room-level effect of `addPlayer`: register the player with score 0; if the
room has no (truthy) owner, make this player the owner and draw a word. -/
def addPlayerRoom (room : Room) (sid nm : String) (pick : Nat) : Room :=
  if strTruthy room.roundOwner then
    { room with players := playersSet room.players { socketId := sid, name := nm, score := 0 } }
  else
    { room with players := playersSet room.players { socketId := sid, name := nm, score := 0 },
                roundOwner := some sid,
                currentWord := some (pickWord pick) }

/-- `addPlayer(roomId, socketId, name)` (word draw supplied by `pick`). -/
def addPlayer (st : GameState) (roomId sid nm : String) (pick : Nat) : GameState :=
  let e := ensureRoom st roomId
  setRoom e.1 roomId (addPlayerRoom e.2 sid nm pick)

/-- Room-level effect of `removePlayerFromAll` on one room. -/
def removePlayerRoom (room : Room) (sid : String) : Room :=
  { room with players := playersDelete room.players sid }

/-- `removePlayerFromAll(socketId)`: delete the player from every room; word
and owner are left untouched (the TODO in the source). -/
def removePlayerFromAll (st : GameState) (sid : String) : GameState :=
  { rooms := fun r => (st.rooms r).map (fun room => removePlayerRoom room sid) }

/-- Room-level effect of `appendShape`. -/
def appendShapeRoom (room : Room) (shape : Shape) : Room :=
  { room with shapes := room.shapes ++ [shape] }

/-- `appendShape(roomId, shape)`: push one shape onto the room's stroke log. -/
def appendShape (st : GameState) (roomId : String) (shape : Shape) : GameState :=
  let e := ensureRoom st roomId
  setRoom e.1 roomId (appendShapeRoom e.2 shape)

/-- Room-level effect of `setCurrentWord`. -/
def setWordRoom (room : Room) (word owner : String) : Room :=
  { room with currentWord := some word, roundOwner := some owner }

/-- `setCurrentWord(roomId, word, ownerSocketId)`. -/
def setCurrentWord (st : GameState) (roomId word owner : String) : GameState :=
  let e := ensureRoom st roomId
  setRoom e.1 roomId (setWordRoom e.2 word owner)

/-- The client-facing room snapshot built by `getRoomState`: the secret word is
replaced by the boolean `room.currentWord ? true : false`. -/
structure RoomState where
  players : List Player
  shapes : List Shape
  currentWord : Bool
  roundOwner : Option String
deriving DecidableEq

/-- `getRoomState(roomId)` (ensures the room, like the source). -/
def getRoomState (st : GameState) (roomId : String) : GameState × RoomState :=
  let e := ensureRoom st roomId
  (e.1, { players := e.2.players, shapes := e.2.shapes,
          currentWord := strTruthy e.2.currentWord, roundOwner := e.2.roundOwner })

/-- `getCurrentWord(roomId)`: `this.rooms.get(roomId)?.currentWord`. -/
def getCurrentWord (st : GameState) (roomId : String) : Option String :=
  (st.rooms roomId).bind Room.currentWord

/-- Result of `checkGuess`: either `{correct: false}` or
`{correct: true, playerName, score}`. -/
inductive GuessResult where
  | incorrect
  | correctRes (playerName : Option String) (score : Nat)
deriving DecidableEq

/-- `checkGuess(roomId, socketId, guess)`: guard `!room.currentWord` (falsy for
`undefined` and `""`), compare trimmed lowercased strings, award 10 points to
the guesser when present. -/
def checkGuess (st : GameState) (roomId sid guess : String) : GameState × GuessResult :=
  let e := ensureRoom st roomId
  if strTruthy e.2.currentWord then
    if normalizeGuess (e.2.currentWord.getD "") == normalizeGuess guess then
      match playersGet e.2.players sid with
      | some p =>
          (setRoom e.1 roomId
             { e.2 with players := playersSet e.2.players { p with score := p.score + 10 } },
           GuessResult.correctRes (some p.name) (p.score + 10))
      | none => (e.1, GuessResult.correctRes none 0)
    else (e.1, GuessResult.incorrect)
  else (e.1, GuessResult.incorrect)

/-- Default for `List.getD` on players; never used at an in-bounds index. -/
def defaultPlayer : Player :=
  { socketId := "", name := "", score := 0 }

/-- `(players.findIndex(p => p.socketId === room.roundOwner) + 1) % players.length`:
JS `findIndex` yields `-1` when no entry matches, and `(-1 + 1) % n = 0`. -/
def nextPresenterIndex (room : Room) : Nat :=
  match listFindIdx? (fun p => decide (room.roundOwner = some p.socketId)) room.players with
  | some i => (i + 1) % room.players.length
  | none => 0

/-- Room-level effect of a successful `startNextRound`: rotate the owner, draw
a fresh word, clear the stroke log. -/
def startNextRoundRoom (room : Room) (pick : Nat) : Room :=
  if room.players.length = 0 then room
  else
    { room with
        roundOwner := some (room.players.getD (nextPresenterIndex room) defaultPlayer).socketId,
        currentWord := some (pickWord pick),
        shapes := [] }

/-- `startNextRound(roomId)`: `null` when the room has no players, otherwise
the next presenter (round robin from the current owner's index) and new word. -/
def startNextRound (st : GameState) (roomId : String) (pick : Nat) :
    GameState × Option (Player × String) :=
  let e := ensureRoom st roomId
  if e.2.players.length = 0 then (e.1, none)
  else
    (setRoom e.1 roomId (startNextRoundRoom e.2 pick),
     some (e.2.players.getD (nextPresenterIndex e.2) defaultPlayer, pickWord pick))

/-- Outbound socket events emitted by the gateway handlers modelled here. -/
inductive Emission where
  | initialState (toClient : String) (state : RoomState)
  | userJoined (roomId clientId userName : String)
  | presenterAssigned (roomId presenterId presenterName : String)
  | roundStarted (toClient : String) (word : String)
  | drawingRemote (roomId senderId : String) (data : Shape)
deriving DecidableEq

/-- `GameGateway.onDraw`: only the current presenter may draw; a non-presenter
event is dropped silently (no emissions, no error), a presenter event appends
the shape and relays it to the rest of the room. -/
def onDraw (st : GameState) (roomId clientId : String) (data : Shape) :
    GameState × List Emission :=
  let g := getRoomState st roomId
  if g.2.roundOwner = some clientId then
    (appendShape g.1 roomId data, [Emission.drawingRemote roomId clientId data])
  else (g.1, [])

/-- `GameGateway.onJoin`: add the player, snapshot the room, announce the join,
announce the presenter to the room, and send the secret word to the presenter
only (guarded by JS truthiness of the word). -/
def onJoin (st : GameState) (roomId clientId userName : String) (pick : Nat) :
    GameState × List Emission :=
  let st1 := addPlayer st roomId clientId userName pick
  let g := getRoomState st1 roomId
  let pr? := g.2.players.find? (fun p => decide (some p.socketId = g.2.roundOwner))
  let base := [Emission.initialState clientId g.2,
               Emission.userJoined roomId clientId userName]
  match pr? with
  | none => (g.1, base)
  | some pr =>
      let ems := base ++ [Emission.presenterAssigned roomId pr.socketId pr.name]
      match getCurrentWord g.1 roomId with
      | some w => if w != "" then (g.1, ems ++ [Emission.roundStarted pr.socketId w])
                  else (g.1, ems)
      | none => (g.1, ems)

/-- The `GameService` operations the reachability claims quantify over, with
random word draws supplied as oracle arguments. -/
inductive Op where
  | addPlayer (roomId sid nm : String) (pick : Nat)
  | removePlayerFromAll (sid : String)
  | appendShape (roomId : String) (shape : Shape)
  | checkGuess (roomId sid guess : String)
  | startNextRound (roomId : String) (pick : Nat)
  | setCurrentWord (roomId word owner : String)
  | ensureRoom (roomId : String)
  | getRoomState (roomId : String)

/-- State transition of one `GameService` operation. -/
def applyOp (st : GameState) : Op → GameState
  | Op.addPlayer r sid nm pick => addPlayer st r sid nm pick
  | Op.removePlayerFromAll sid => removePlayerFromAll st sid
  | Op.appendShape r shape => appendShape st r shape
  | Op.checkGuess r sid guess => (checkGuess st r sid guess).1
  | Op.startNextRound r pick => (startNextRound st r pick).1
  | Op.setCurrentWord r w o => setCurrentWord st r w o
  | Op.ensureRoom r => (ensureRoom st r).1
  | Op.getRoomState r => (getRoomState st r).1

/-- States reachable from a fresh service by any operation sequence. -/
inductive Reachable : GameState → Prop where
  | init : Reachable initState
  | step : ∀ (st : GameState) (op : Op), Reachable st → Reachable (applyOp st op)

/-- A room-local invariant holding for every registered room. -/
def StInv (P : Room → Prop) (st : GameState) : Prop :=
  ∀ r room, st.rooms r = some room → P room

/-- C1's invariant: owner and word are set (present) together. -/
def ownerWordPaired (room : Room) : Prop :=
  room.roundOwner.isSome ↔ room.currentWord.isSome

/-- C4's invariant: the owner, when set, is the socketId of a roster member. -/
def presenterIsMember (room : Room) : Prop :=
  ∀ sid, room.roundOwner = some sid → ∃ p, p ∈ room.players ∧ p.socketId = sid

/-- The score of a player in a room, when both exist. -/
def scoreOf (st : GameState) (roomId sid : String) : Option Nat :=
  (st.rooms roomId).bind (fun room => (playersGet room.players sid).map Player.score)

/-- Whether an operation is an `addPlayer` for the given socketId (the one
operation that rewrites that player's score to 0). -/
def opResets (op : Op) (sid : String) : Prop :=
  match op with
  | Op.addPlayer _ s _ _ => s = sid
  | _ => False

/-- Operations claimed safe for the presenter-membership invariant
(`removePlayerFromAll` and `setCurrentWord` can break it). -/
def presenterSafe : Op → Prop
  | Op.removePlayerFromAll _ => False
  | Op.setCurrentWord _ _ _ => False
  | _ => True

/-- Frame condition on stroke logs: every room either keeps its shapes exactly
or is freshly created with an empty log. -/
def shapesFrame (st st' : GameState) : Prop :=
  ∀ r room', st'.rooms r = some room' →
    (∃ room, st.rooms r = some room ∧ room'.shapes = room.shapes) ∨
    (st.rooms r = none ∧ room'.shapes = [])

/-- Room-level effect of `checkGuess` on the room (mutation happens only on a
correct guess by a roster member). -/
def checkGuessRoom (room : Room) (sid guess : String) : Room :=
  if strTruthy room.currentWord &&
     (normalizeGuess (room.currentWord.getD "") == normalizeGuess guess) then
    match playersGet room.players sid with
    | some p => { room with players := playersSet room.players { p with score := p.score + 10 } }
    | none => room
  else room

/-! Concrete states used to instantiate the theorems below. -/

/-- One player `A` joined room `"r"` (first join: `A` becomes owner, word drawn). -/
def stA : GameState := applyOp initState (Op.addPlayer "r" "A" "a" 0)

/-- ... then `A` disconnects. -/
def stRem : GameState := applyOp stA (Op.removePlayerFromAll "A")

/-- ... instead, `A` guesses the word correctly (score 10). -/
def stScored : GameState := applyOp stA (Op.checkGuess "r" "A" "사과")

/-- ... then `A` re-joins: the roster entry is rewritten with score 0. -/
def stReset : GameState := applyOp stScored (Op.addPlayer "r" "A" "a" 0)

/-- Room `"r"` with roster `[A, B, C]` and current owner `B`. -/
def stRobin : GameState :=
  applyOp (applyOp (applyOp (applyOp initState (Op.addPlayer "r" "A" "a" 0))
    (Op.addPlayer "r" "B" "b" 0)) (Op.addPlayer "r" "C" "c" 0)) (Op.setCurrentWord "r" "w" "B")

/-- Room `"w2"` with member `G` and secret `"Apple "` (spec's guess example). -/
def stApple : GameState :=
  setCurrentWord (applyOp initState (Op.addPlayer "w2" "G" "g" 0)) "w2" "Apple " "A"

/-- Room `"cx"` whose secret is the empty string (JS-falsy but present). -/
def stEmptyWordC2 : GameState := setCurrentWord initState "cx" "" "A"

/-- Room `"emptyroom"` whose secret is the empty string. -/
def stEmptyWordC6 : GameState := setCurrentWord initState "emptyroom" "" "O"

/-- Room `"wr"` with secret `"Apple "` and no roster members. -/
def stNonMember : GameState := setCurrentWord initState "wr" "Apple " "P"

/-- Room `"er"` whose secret is the empty string and no roster members. -/
def stEmptyWordC10 : GameState := setCurrentWord initState "er" "" "P"

/-! ## Basic lemmas about the registry primitives -/

theorem rooms_setRoom (st : GameState) (roomId : String) (room : Room) (x : String) :
    (setRoom st roomId room).rooms x = if x = roomId then some room else st.rooms x := rfl

theorem ensureRoom_of_some {st : GameState} {roomId : String} {room : Room}
    (h : st.rooms roomId = some room) : ensureRoom st roomId = (st, room) := by
  simp [ensureRoom, h]

theorem ensureRoom_of_none {st : GameState} {roomId : String}
    (h : st.rooms roomId = none) :
    ensureRoom st roomId = (setRoom st roomId (emptyRoom roomId), emptyRoom roomId) := by
  simp [ensureRoom, h]

theorem ensureRoom_fst_rooms (st : GameState) (roomId x : String) :
    (ensureRoom st roomId).1.rooms x =
      if x = roomId then some (ensureRoom st roomId).2 else st.rooms x := by
  cases h : st.rooms roomId with
  | some room =>
      rw [ensureRoom_of_some h]
      by_cases hx : x = roomId <;> simp [hx, h]
  | none =>
      rw [ensureRoom_of_none h]
      by_cases hx : x = roomId <;> simp [rooms_setRoom, hx, h]

theorem ensureRoom_rooms_self (st : GameState) (roomId : String) :
    (ensureRoom st roomId).1.rooms roomId = some (ensureRoom st roomId).2 := by
  rw [ensureRoom_fst_rooms]; simp

/-- If the ensured room carries a word, the room predates the call, so
`ensureRoom` was a pure lookup. -/
theorem ensureRoom_eq_of_word {st : GameState} {roomId : String} {w : String}
    (h : (ensureRoom st roomId).2.currentWord = some w) :
    ensureRoom st roomId = (st, (ensureRoom st roomId).2) := by
  cases hr : st.rooms roomId with
  | some room => rw [ensureRoom_of_some hr]
  | none => rw [ensureRoom_of_none hr] at h; simp [emptyRoom] at h

/-! ## Lemmas about the player roster -/

theorem playersSet_cons_eq {q : Player} {rest : List Player} {p : Player}
    (h : q.socketId = p.socketId) : playersSet (q :: rest) p = p :: rest := by
  simp [playersSet, h]

theorem playersSet_cons_ne {q : Player} {rest : List Player} {p : Player}
    (h : ¬ q.socketId = p.socketId) : playersSet (q :: rest) p = q :: playersSet rest p := by
  simp [playersSet, h]

theorem playersGet_nil (sid : String) : playersGet [] sid = none := rfl

theorem playersGet_cons_eq {q : Player} {rest : List Player} {sid : String}
    (h : q.socketId = sid) : playersGet (q :: rest) sid = some q := by
  simp [playersGet, List.find?, h]

theorem playersGet_cons_ne {q : Player} {rest : List Player} {sid : String}
    (h : ¬ q.socketId = sid) : playersGet (q :: rest) sid = playersGet rest sid := by
  have hb : (q.socketId == sid) = false := by simp [h]
  simp [playersGet, List.find?, hb]

theorem playersGet_set_self (ps : List Player) (p : Player) :
    playersGet (playersSet ps p) p.socketId = some p := by
  induction ps with
  | nil => simp [playersSet, playersGet, List.find?]
  | cons q rest ih =>
      by_cases h : q.socketId = p.socketId
      · rw [playersSet_cons_eq h, playersGet_cons_eq rfl]
      · rw [playersSet_cons_ne h, playersGet_cons_ne h]
        exact ih

theorem playersGet_set_key (ps : List Player) (q : Player) (sid : String)
    (h : q.socketId = sid) : playersGet (playersSet ps q) sid = some q := by
  rw [← h]; exact playersGet_set_self ps q

theorem playersGet_set_ne (ps : List Player) (p : Player) (sid : String)
    (h : ¬ sid = p.socketId) :
    playersGet (playersSet ps p) sid = playersGet ps sid := by
  induction ps with
  | nil =>
      rw [show playersSet [] p = [p] from rfl, playersGet_nil,
          playersGet_cons_ne (fun hc => h hc.symm), playersGet_nil]
  | cons q rest ih =>
      by_cases hq : q.socketId = p.socketId
      · rw [playersSet_cons_eq hq, playersGet_cons_ne (fun hc => h hc.symm),
            playersGet_cons_ne (fun hc => h (hq ▸ hc).symm)]
      · rw [playersSet_cons_ne hq]
        by_cases hqs : q.socketId = sid
        · rw [playersGet_cons_eq hqs, playersGet_cons_eq hqs]
        · rw [playersGet_cons_ne hqs, playersGet_cons_ne hqs]
          exact ih

theorem playersGet_delete_self (ps : List Player) (sid : String) :
    playersGet (playersDelete ps sid) sid = none := by
  induction ps with
  | nil => rfl
  | cons q rest ih =>
      by_cases h : q.socketId = sid
      · simpa [playersDelete, h] using ih
      · simpa [playersDelete, h, playersGet_cons_ne h] using ih

theorem playersGet_delete_ne (ps : List Player) (sid sidDel : String)
    (h : ¬ sid = sidDel) :
    playersGet (playersDelete ps sidDel) sid = playersGet ps sid := by
  induction ps with
  | nil => rfl
  | cons q rest ih =>
      by_cases hq : q.socketId = sidDel
      · have hqs : ¬ q.socketId = sid := fun hc => h ((hc.symm.trans hq))
        simpa [playersDelete, hq, playersGet_cons_ne hqs] using ih
      · by_cases hqs : q.socketId = sid
        · simp [playersDelete, hq, playersGet_cons_eq hqs]
        · simpa [playersDelete, hq, playersGet_cons_ne hqs] using ih

theorem self_mem_playersSet (ps : List Player) (p : Player) : p ∈ playersSet ps p := by
  induction ps with
  | nil => exact List.mem_singleton_self p
  | cons q rest ih =>
      by_cases h : q.socketId = p.socketId
      · rw [playersSet_cons_eq h]; exact List.mem_cons_self _ _
      · rw [playersSet_cons_ne h]; exact List.mem_cons_of_mem _ ih

/-- Setting a player never removes a socketId from the roster: any member's id
is still carried by some member afterwards. -/
theorem mem_playersSet_socketId (ps : List Player) (p q : Player) (hq : q ∈ ps) :
    ∃ q', q' ∈ playersSet ps p ∧ q'.socketId = q.socketId := by
  induction ps with
  | nil => cases hq
  | cons a rest ih =>
      by_cases h : a.socketId = p.socketId
      · rw [playersSet_cons_eq h]
        rcases List.mem_cons.mp hq with rfl | hmem
        · exact ⟨p, List.mem_cons_self _ _, h.symm⟩
        · exact ⟨q, List.mem_cons_of_mem _ hmem, rfl⟩
      · rw [playersSet_cons_ne h]
        rcases List.mem_cons.mp hq with rfl | hmem
        · exact ⟨q, List.mem_cons_self _ _, rfl⟩
        · rcases ih hmem with ⟨q', hq', hsid⟩
          exact ⟨q', List.mem_cons_of_mem _ hq', hsid⟩

/-! ## Lemmas about `listFindIdx?` (JS `findIndex`) -/

theorem listFindIdx?_eq_none {f : Player → Bool} {ps : List Player}
    (h : ∀ p ∈ ps, f p = false) : listFindIdx? f ps = none := by
  induction ps with
  | nil => rfl
  | cons q rest ih =>
      simp [listFindIdx?, h q (List.mem_cons_self _ _),
            ih (fun p hp => h p (List.mem_cons_of_mem _ hp))]

theorem listFindIdx?_eq_some {f : Player → Bool} {ps : List Player} {i : Nat}
    (hi : i < ps.length) (hp : f (ps.getD i defaultPlayer) = true)
    (hfirst : ∀ j, j < i → f (ps.getD j defaultPlayer) = false) :
    listFindIdx? f ps = some i := by
  induction ps generalizing i with
  | nil => simp at hi
  | cons q rest ih =>
      cases i with
      | zero =>
          rw [List.getD_cons_zero] at hp
          simp [listFindIdx?, hp]
      | succ n =>
          have hq : f q = false := by
            have := hfirst 0 (Nat.succ_pos n)
            rwa [List.getD_cons_zero] at this
          have hrest : listFindIdx? f rest = some n := by
            refine ih (Nat.lt_of_succ_lt_succ hi) ?_ ?_
            · rwa [List.getD_cons_succ] at hp
            · intro j hj
              have := hfirst (j + 1) (Nat.succ_lt_succ hj)
              rwa [List.getD_cons_succ] at this
          simp [listFindIdx?, hq, hrest]

/-! ## Field-level facts about the room transforms -/

theorem addPlayerRoom_players (room : Room) (sid nm : String) (pick : Nat) :
    (addPlayerRoom room sid nm pick).players =
      playersSet room.players { socketId := sid, name := nm, score := 0 } := by
  unfold addPlayerRoom; split <;> rfl

theorem addPlayerRoom_shapes (room : Room) (sid nm : String) (pick : Nat) :
    (addPlayerRoom room sid nm pick).shapes = room.shapes := by
  unfold addPlayerRoom; split <;> rfl

theorem checkGuessRoom_currentWord (room : Room) (sid guess : String) :
    (checkGuessRoom room sid guess).currentWord = room.currentWord := by
  unfold checkGuessRoom
  split
  · split <;> rfl
  · rfl

theorem checkGuessRoom_roundOwner (room : Room) (sid guess : String) :
    (checkGuessRoom room sid guess).roundOwner = room.roundOwner := by
  unfold checkGuessRoom
  split
  · split <;> rfl
  · rfl

theorem checkGuessRoom_shapes (room : Room) (sid guess : String) :
    (checkGuessRoom room sid guess).shapes = room.shapes := by
  unfold checkGuessRoom
  split
  · split <;> rfl
  · rfl

theorem startNextRoundRoom_players (room : Room) (pick : Nat) :
    (startNextRoundRoom room pick).players = room.players := by
  unfold startNextRoundRoom; split <;> rfl

theorem startNextRoundRoom_shapes_of_pos (room : Room) (pick : Nat)
    (h : ¬ room.players.length = 0) :
    (startNextRoundRoom room pick).shapes = [] := by
  unfold startNextRoundRoom; simp [h]

theorem nextPresenterIndex_lt (room : Room) (h : ¬ room.players.length = 0) :
    nextPresenterIndex room < room.players.length := by
  unfold nextPresenterIndex
  cases listFindIdx? (fun p => decide (room.roundOwner = some p.socketId)) room.players with
  | none => exact Nat.pos_of_ne_zero h
  | some i => exact Nat.mod_lt _ (Nat.pos_of_ne_zero h)

theorem removePlayerRoom_currentWord (room : Room) (sid : String) :
    (removePlayerRoom room sid).currentWord = room.currentWord := rfl

theorem removePlayerRoom_roundOwner (room : Room) (sid : String) :
    (removePlayerRoom room sid).roundOwner = room.roundOwner := rfl

theorem removePlayerRoom_shapes (room : Room) (sid : String) :
    (removePlayerRoom room sid).shapes = room.shapes := rfl

/-! ## Registry-shape lemmas for each operation -/

theorem addPlayer_rooms (st : GameState) (r sid nm : String) (pick : Nat) (x : String) :
    (addPlayer st r sid nm pick).rooms x =
      if x = r then some (addPlayerRoom (ensureRoom st r).2 sid nm pick) else st.rooms x := by
  unfold addPlayer
  rw [rooms_setRoom]
  by_cases hx : x = r <;> simp [hx, ensureRoom_fst_rooms]

theorem appendShape_rooms (st : GameState) (r : String) (shape : Shape) (x : String) :
    (appendShape st r shape).rooms x =
      if x = r then some (appendShapeRoom (ensureRoom st r).2 shape) else st.rooms x := by
  unfold appendShape
  rw [rooms_setRoom]
  by_cases hx : x = r <;> simp [hx, ensureRoom_fst_rooms]

theorem setCurrentWord_rooms (st : GameState) (r w o : String) (x : String) :
    (setCurrentWord st r w o).rooms x =
      if x = r then some (setWordRoom (ensureRoom st r).2 w o) else st.rooms x := by
  unfold setCurrentWord
  rw [rooms_setRoom]
  by_cases hx : x = r <;> simp [hx, ensureRoom_fst_rooms]

theorem removePlayerFromAll_rooms (st : GameState) (sid : String) (x : String) :
    (removePlayerFromAll st sid).rooms x =
      (st.rooms x).map (fun room => removePlayerRoom room sid) := rfl

theorem startNextRound_fst_rooms (st : GameState) (r : String) (pick : Nat) (x : String) :
    (startNextRound st r pick).1.rooms x =
      if x = r then some (startNextRoundRoom (ensureRoom st r).2 pick) else st.rooms x := by
  unfold startNextRound
  by_cases hz : (ensureRoom st r).2.players.length = 0
  · rw [if_pos hz]
    by_cases hx : x = r
    · simpa [hx, startNextRoundRoom, hz] using ensureRoom_fst_rooms st r x
    · simpa [hx] using ensureRoom_fst_rooms st r x
  · rw [if_neg hz]
    rw [rooms_setRoom]
    by_cases hx : x = r <;> simp [hx, ensureRoom_fst_rooms]

theorem checkGuess_fst_rooms (st : GameState) (r sid guess : String) (x : String) :
    (checkGuess st r sid guess).1.rooms x =
      if x = r then some (checkGuessRoom (ensureRoom st r).2 sid guess) else st.rooms x := by
  unfold checkGuess checkGuessRoom
  by_cases ht : strTruthy (ensureRoom st r).2.currentWord
  · by_cases hm : (normalizeGuess ((ensureRoom st r).2.currentWord.getD "") ==
        normalizeGuess guess) = true
    · cases hp : playersGet (ensureRoom st r).2.players sid with
      | some p =>
          simp only [ht, hm, hp, if_pos, Bool.and_self]
          rw [rooms_setRoom]
          by_cases hx : x = r <;> simp [hx, ensureRoom_fst_rooms]
      | none =>
          simp only [ht, hm, hp, Bool.and_self, if_pos]
          by_cases hx : x = r <;> simp [hx, ensureRoom_fst_rooms]
    · have hm' : (normalizeGuess ((ensureRoom st r).2.currentWord.getD "") ==
          normalizeGuess guess) = false := by
        cases hb : (normalizeGuess ((ensureRoom st r).2.currentWord.getD "") ==
            normalizeGuess guess) with
        | true => exact absurd hb hm
        | false => rfl
      simp only [ht, hm', Bool.and_false, if_neg, Bool.false_eq_true, not_false_iff,
                 if_true, Bool.true_and]
      by_cases hx : x = r <;> simp [hx, ensureRoom_fst_rooms]
  · have ht' : strTruthy (ensureRoom st r).2.currentWord = false := by
      cases hb : strTruthy (ensureRoom st r).2.currentWord with
      | true => exact absurd hb ht
      | false => rfl
    simp only [ht', Bool.false_and, if_neg, Bool.false_eq_true, not_false_iff]
    by_cases hx : x = r <;> simp [hx, ensureRoom_fst_rooms]

theorem getRoomState_fst (st : GameState) (r : String) :
    (getRoomState st r).1 = (ensureRoom st r).1 := rfl

/-! ## Truthiness and `checkGuess` branch lemmas -/

theorem strTruthy_some_true {w : String} (h : ¬ w = "") : strTruthy (some w) = true := by
  simp [strTruthy, h]

theorem strTruthy_eq_true_iff (o : Option String) :
    strTruthy o = true ↔ ∃ w, o = some w ∧ ¬ w = "" := by
  cases o with
  | none => simp [strTruthy]
  | some w => by_cases h : w = "" <;> simp [strTruthy, h]

theorem playersGet_socketId {ps : List Player} {sid : String} {p : Player}
    (h : playersGet ps sid = some p) : p.socketId = sid := by
  have := List.find?_some h
  simpa using this

/-- `checkGuess` when the stored word is JS-falsy (`undefined` or `""`). -/
theorem checkGuess_falsy (st : GameState) (roomId sid guess : String)
    (h : strTruthy (ensureRoom st roomId).2.currentWord = false) :
    checkGuess st roomId sid guess = ((ensureRoom st roomId).1, GuessResult.incorrect) := by
  unfold checkGuess
  simp [h]

/-- `checkGuess` on a truthy word whose normalization differs from the guess:
pure lookup, no state change. -/
theorem checkGuess_nomatch (st : GameState) (roomId sid guess w : String)
    (hw : (ensureRoom st roomId).2.currentWord = some w) (hne : ¬ w = "")
    (hm : ¬ normalizeGuess w = normalizeGuess guess) :
    checkGuess st roomId sid guess = (st, GuessResult.incorrect) := by
  unfold checkGuess
  have ht : strTruthy (ensureRoom st roomId).2.currentWord = true := by
    rw [hw]; exact strTruthy_some_true hne
  have hg : (ensureRoom st roomId).2.currentWord.getD "" = w := by rw [hw]; rfl
  have hb : (normalizeGuess ((ensureRoom st roomId).2.currentWord.getD "") ==
      normalizeGuess guess) = false := by
    rw [hg]; simp [hm]
  have he := ensureRoom_eq_of_word hw
  simp only [ht, if_true, hb, Bool.false_eq_true, if_false]
  rw [he]

/-- `checkGuess` on a matching guess by a roster member: the member's entry is
rewritten with 10 more points and the new score is returned. -/
theorem checkGuess_match_mem (st : GameState) (roomId sid guess w : String) (p : Player)
    (hw : (ensureRoom st roomId).2.currentWord = some w) (hne : ¬ w = "")
    (hm : normalizeGuess w = normalizeGuess guess)
    (hp : playersGet (ensureRoom st roomId).2.players sid = some p) :
    checkGuess st roomId sid guess =
      (setRoom st roomId
         { (ensureRoom st roomId).2 with
             players := playersSet (ensureRoom st roomId).2.players
               { p with score := p.score + 10 } },
       GuessResult.correctRes (some p.name) (p.score + 10)) := by
  unfold checkGuess
  have ht : strTruthy (ensureRoom st roomId).2.currentWord = true := by
    rw [hw]; exact strTruthy_some_true hne
  have hg : (ensureRoom st roomId).2.currentWord.getD "" = w := by rw [hw]; rfl
  have hb : (normalizeGuess ((ensureRoom st roomId).2.currentWord.getD "") ==
      normalizeGuess guess) = true := by
    rw [hg]; simp [hm]
  have he := ensureRoom_eq_of_word hw
  simp only [ht, if_true, hb, hp]
  rw [he]

/-- `checkGuess` on a matching guess by a non-member: reports success with
score 0 and `playerName` undefined, and leaves the state exactly as it was. -/
theorem checkGuess_match_nonmem (st : GameState) (roomId sid guess w : String)
    (hw : (ensureRoom st roomId).2.currentWord = some w) (hne : ¬ w = "")
    (hm : normalizeGuess w = normalizeGuess guess)
    (hp : playersGet (ensureRoom st roomId).2.players sid = none) :
    checkGuess st roomId sid guess = (st, GuessResult.correctRes none 0) := by
  unfold checkGuess
  have ht : strTruthy (ensureRoom st roomId).2.currentWord = true := by
    rw [hw]; exact strTruthy_some_true hne
  have hg : (ensureRoom st roomId).2.currentWord.getD "" = w := by rw [hw]; rfl
  have hb : (normalizeGuess ((ensureRoom st roomId).2.currentWord.getD "") ==
      normalizeGuess guess) = true := by
    rw [hg]; simp [hm]
  have he := ensureRoom_eq_of_word hw
  simp only [ht, if_true, hb, hp]
  rw [he]

/-! ## `scoreOf` facts for each operation -/

theorem scoreOf_def (st : GameState) (roomId sid : String) :
    scoreOf st roomId sid =
      (st.rooms roomId).bind (fun room => (playersGet room.players sid).map Player.score) := rfl

/-- Score framing for the ensure-then-transform shaped operations when the
transform leaves the observed player's roster entry alone. -/
theorem scoreOf_eq_of_rooms_if (r : String) (f : Room → Room) {st st' : GameState}
    {roomId sid : String}
    (hrooms : st'.rooms roomId =
      if roomId = r then some (f (ensureRoom st r).2) else st.rooms roomId)
    (hf : ∀ room, playersGet (f room).players sid = playersGet room.players sid) :
    scoreOf st' roomId sid = scoreOf st roomId sid := by
  rw [scoreOf_def, scoreOf_def, hrooms]
  by_cases hx : roomId = r
  · rw [if_pos hx]
    subst hx
    cases h : st.rooms roomId with
    | some room =>
        rw [ensureRoom_of_some h]
        simp only [Option.some_bind]
        rw [hf]
    | none =>
        rw [ensureRoom_of_none h]
        simp only [Option.some_bind, Option.none_bind]
        rw [hf]
        rfl
  · rw [if_neg hx]

theorem scoreOf_ensureRoom (st : GameState) (r roomId sid : String) :
    scoreOf (ensureRoom st r).1 roomId sid = scoreOf st roomId sid :=
  scoreOf_eq_of_rooms_if r (fun room => room) (ensureRoom_fst_rooms st r roomId)
    (fun _ => rfl)

theorem scoreOf_addPlayer_ne (st : GameState) (r sid nm : String) (pick : Nat)
    (roomId s : String) (hs : ¬ s = sid) :
    scoreOf (addPlayer st r sid nm pick) roomId s = scoreOf st roomId s := by
  refine scoreOf_eq_of_rooms_if r (fun room => addPlayerRoom room sid nm pick)
    (addPlayer_rooms st r sid nm pick roomId) ?_
  intro room
  rw [addPlayerRoom_players]
  exact playersGet_set_ne _ _ _ hs

theorem scoreOf_addPlayer_self (st : GameState) (r sid nm : String) (pick : Nat) :
    scoreOf (addPlayer st r sid nm pick) r sid = some 0 := by
  rw [scoreOf_def, addPlayer_rooms, if_pos rfl]
  simp only [Option.some_bind]
  rw [addPlayerRoom_players]
  rw [show sid = (Player.mk sid nm 0).socketId from rfl, playersGet_set_self]
  rfl

theorem scoreOf_appendShape (st : GameState) (r : String) (shape : Shape) (roomId s : String) :
    scoreOf (appendShape st r shape) roomId s = scoreOf st roomId s :=
  scoreOf_eq_of_rooms_if r (fun room => appendShapeRoom room shape)
    (appendShape_rooms st r shape roomId) (fun _ => rfl)

theorem scoreOf_setCurrentWord (st : GameState) (r w o roomId s : String) :
    scoreOf (setCurrentWord st r w o) roomId s = scoreOf st roomId s :=
  scoreOf_eq_of_rooms_if r (fun room => setWordRoom room w o)
    (setCurrentWord_rooms st r w o roomId) (fun _ => rfl)

theorem scoreOf_startNextRound (st : GameState) (r : String) (pick : Nat) (roomId s : String) :
    scoreOf (startNextRound st r pick).1 roomId s = scoreOf st roomId s := by
  refine scoreOf_eq_of_rooms_if r (fun room => startNextRoundRoom room pick)
    (startNextRound_fst_rooms st r pick roomId) ?_
  intro room
  rw [startNextRoundRoom_players]

theorem scoreOf_removePlayer_ne (st : GameState) (sid roomId s : String) (hs : ¬ s = sid) :
    scoreOf (removePlayerFromAll st sid) roomId s = scoreOf st roomId s := by
  rw [scoreOf_def, scoreOf_def, removePlayerFromAll_rooms]
  cases h : st.rooms roomId with
  | none => rfl
  | some room =>
      simp only [Option.map_some', Option.some_bind]
      rw [show (removePlayerRoom room sid).players = playersDelete room.players sid from rfl,
          playersGet_delete_ne _ _ _ hs]

theorem scoreOf_removePlayer_self (st : GameState) (sid roomId : String) :
    scoreOf (removePlayerFromAll st sid) roomId sid = none := by
  rw [scoreOf_def, removePlayerFromAll_rooms]
  cases h : st.rooms roomId with
  | none => rfl
  | some room =>
      simp only [Option.map_some', Option.some_bind]
      rw [show (removePlayerRoom room sid).players = playersDelete room.players sid from rfl,
          playersGet_delete_self]
      rfl

theorem scoreOf_checkGuess_ne (st : GameState) (r sidG guess roomId s : String)
    (hs : ¬ s = sidG) :
    scoreOf (checkGuess st r sidG guess).1 roomId s = scoreOf st roomId s := by
  refine scoreOf_eq_of_rooms_if r (fun room => checkGuessRoom room sidG guess)
    (checkGuess_fst_rooms st r sidG guess roomId) ?_
  intro room
  show playersGet (checkGuessRoom room sidG guess).players s = playersGet room.players s
  unfold checkGuessRoom
  split
  · cases hp : playersGet room.players sidG with
    | some p =>
        simp only [hp]
        have h1 : p.socketId = sidG := playersGet_socketId hp
        have hps : ¬ s = ({ p with score := p.score + 10 } : Player).socketId :=
          fun hc => hs (hc.trans h1)
        exact playersGet_set_ne _ _ _ hps
    | none => simp only [hp]
  · rfl

/-- The guessing player's observable score either stays put or gains exactly
10 points. -/
theorem scoreOf_checkGuess_self (st : GameState) (r sidG guess roomId : String) :
    scoreOf (checkGuess st r sidG guess).1 roomId sidG = scoreOf st roomId sidG ∨
    ∃ m, scoreOf st roomId sidG = some m ∧
         scoreOf (checkGuess st r sidG guess).1 roomId sidG = some (m + 10) := by
  by_cases hx : roomId = r
  · subst hx
    cases h : st.rooms roomId with
    | none =>
        left
        rw [scoreOf_def, scoreOf_def, checkGuess_fst_rooms, if_pos rfl,
            ensureRoom_of_none h, h]
        rfl
    | some room =>
        have he : ensureRoom st roomId = (st, room) := ensureRoom_of_some h
        cases hp : playersGet room.players sidG with
        | none =>
            left
            rw [scoreOf_def, scoreOf_def, checkGuess_fst_rooms, if_pos rfl, he, h]
            simp only [Option.some_bind]
            have hcg : playersGet (checkGuessRoom room sidG guess).players sidG =
                playersGet room.players sidG := by
              unfold checkGuessRoom
              split
              · simp only [hp]
              · rfl
            rw [hcg]
        | some p =>
            by_cases hmut : (strTruthy room.currentWord &&
                (normalizeGuess (room.currentWord.getD "") == normalizeGuess guess)) = true
            · right
              refine ⟨p.score, ?_, ?_⟩
              · rw [scoreOf_def, h]
                simp only [Option.some_bind]
                rw [hp]
                rfl
              · rw [scoreOf_def, checkGuess_fst_rooms, if_pos rfl, he]
                simp only [Option.some_bind]
                unfold checkGuessRoom
                rw [if_pos hmut]
                simp only [hp]
                have h1 : p.socketId = sidG := playersGet_socketId hp
                have hX : ({ p with score := p.score + 10 } : Player).socketId = sidG := h1
                rw [playersGet_set_key room.players { p with score := p.score + 10 } sidG hX]
                rfl
            · left
              rw [scoreOf_def, scoreOf_def, checkGuess_fst_rooms, if_pos rfl, he, h]
              simp only [Option.some_bind]
              have hcg : checkGuessRoom room sidG guess = room := by
                unfold checkGuessRoom
                rw [if_neg hmut]
              rw [hcg]
  · left
    rw [scoreOf_def, scoreOf_def, checkGuess_fst_rooms, if_neg hx]

/-! ## Generic invariant-preservation machinery -/

theorem getD_eq_get_of_lt (l : List Player) (n : Nat) (d : Player) (h : n < l.length) :
    l.getD n d = l.get ⟨n, h⟩ := by
  induction l generalizing n with
  | nil => simp at h
  | cons a t ih =>
      cases n with
      | zero => rfl
      | succ m => exact ih m (Nat.lt_of_succ_lt_succ h)

theorem getD_mem_of_lt (l : List Player) (n : Nat) (d : Player) (h : n < l.length) :
    l.getD n d ∈ l := by
  rw [getD_eq_get_of_lt l n d h]
  exact List.get_mem l n h

/-- One step of any ensure-then-write operation preserves a pointwise room
invariant closed under its transform. -/
theorem stInv_step_of_transform (r : String) (f : Room → Room) {P : Room → Prop}
    {st0 st1 : GameState}
    (hrooms : ∀ x, st1.rooms x = if x = r then some (f (ensureRoom st0 r).2) else st0.rooms x)
    (hP : ∀ room, P room → P (f room))
    (hE : P (emptyRoom r))
    (ih : StInv P st0) : StInv P st1 := by
  intro x room hx
  rw [hrooms x] at hx
  by_cases hxr : x = r
  · rw [if_pos hxr] at hx
    injection hx with hx
    subst hx
    cases h0 : st0.rooms r with
    | some room0 =>
        rw [show (ensureRoom st0 r).2 = room0 from by rw [ensureRoom_of_some h0]]
        exact hP room0 (ih r room0 h0)
    | none =>
        rw [show (ensureRoom st0 r).2 = emptyRoom r from by rw [ensureRoom_of_none h0]]
        exact hP _ hE
  · rw [if_neg hxr] at hx
    exact ih x room hx

theorem stInv_removePlayerFromAll {P : Room → Prop} {st : GameState} (sid : String)
    (hP : ∀ room, P room → P (removePlayerRoom room sid))
    (ih : StInv P st) : StInv P (removePlayerFromAll st sid) := by
  intro x room hx
  rw [removePlayerFromAll_rooms] at hx
  cases h0 : st.rooms x with
  | none => rw [h0] at hx; nomatch hx
  | some room0 =>
      rw [h0] at hx
      simp only [Option.map_some'] at hx
      injection hx with hx
      subst hx
      exact hP room0 (ih x room0 h0)

/-! ## Closure of the owner/word pairing under every room transform -/

theorem ownerWordPaired_emptyRoom (r : String) : ownerWordPaired (emptyRoom r) := by
  simp [ownerWordPaired, emptyRoom]

theorem ownerWordPaired_addPlayerRoom {room : Room} (h : ownerWordPaired room)
    (sid nm : String) (pick : Nat) : ownerWordPaired (addPlayerRoom room sid nm pick) := by
  unfold addPlayerRoom
  split
  · exact h
  · simp [ownerWordPaired]

theorem ownerWordPaired_removePlayerRoom {room : Room} (h : ownerWordPaired room)
    (sid : String) : ownerWordPaired (removePlayerRoom room sid) := h

theorem ownerWordPaired_appendShapeRoom {room : Room} (h : ownerWordPaired room)
    (shape : Shape) : ownerWordPaired (appendShapeRoom room shape) := h

theorem ownerWordPaired_checkGuessRoom {room : Room} (h : ownerWordPaired room)
    (sid guess : String) : ownerWordPaired (checkGuessRoom room sid guess) := by
  unfold ownerWordPaired
  rw [checkGuessRoom_roundOwner, checkGuessRoom_currentWord]
  exact h

theorem ownerWordPaired_startNextRoundRoom {room : Room} (h : ownerWordPaired room)
    (pick : Nat) : ownerWordPaired (startNextRoundRoom room pick) := by
  unfold startNextRoundRoom
  split
  · exact h
  · simp [ownerWordPaired]

theorem ownerWordPaired_setWordRoom (room : Room) (w o : String) :
    ownerWordPaired (setWordRoom room w o) := by
  simp [ownerWordPaired, setWordRoom]

/-- Every reachable registry pairs the owner and the word in every room. -/
theorem reachable_ownerWordPaired (st : GameState) (h : Reachable st) :
    StInv ownerWordPaired st := by
  induction h with
  | init => intro _ _ hr; nomatch hr
  | step st0 op h0 ih =>
      cases op with
      | addPlayer r sid nm pick =>
          exact stInv_step_of_transform r (fun room => addPlayerRoom room sid nm pick)
            (fun x => addPlayer_rooms st0 r sid nm pick x)
            (fun room hP => ownerWordPaired_addPlayerRoom hP sid nm pick)
            (ownerWordPaired_emptyRoom r) ih
      | removePlayerFromAll sid =>
          exact stInv_removePlayerFromAll sid
            (fun room hP => ownerWordPaired_removePlayerRoom hP sid) ih
      | appendShape r shape =>
          exact stInv_step_of_transform r (fun room => appendShapeRoom room shape)
            (fun x => appendShape_rooms st0 r shape x)
            (fun room hP => ownerWordPaired_appendShapeRoom hP shape)
            (ownerWordPaired_emptyRoom r) ih
      | checkGuess r sid guess =>
          exact stInv_step_of_transform r (fun room => checkGuessRoom room sid guess)
            (fun x => checkGuess_fst_rooms st0 r sid guess x)
            (fun room hP => ownerWordPaired_checkGuessRoom hP sid guess)
            (ownerWordPaired_emptyRoom r) ih
      | startNextRound r pick =>
          exact stInv_step_of_transform r (fun room => startNextRoundRoom room pick)
            (fun x => startNextRound_fst_rooms st0 r pick x)
            (fun room hP => ownerWordPaired_startNextRoundRoom hP pick)
            (ownerWordPaired_emptyRoom r) ih
      | setCurrentWord r w o =>
          exact stInv_step_of_transform r (fun room => setWordRoom room w o)
            (fun x => setCurrentWord_rooms st0 r w o x)
            (fun room _ => ownerWordPaired_setWordRoom room w o)
            (ownerWordPaired_emptyRoom r) ih
      | ensureRoom r =>
          exact stInv_step_of_transform r (fun room => room)
            (fun x => ensureRoom_fst_rooms st0 r x)
            (fun room hP => hP) (ownerWordPaired_emptyRoom r) ih
      | getRoomState r =>
          exact stInv_step_of_transform r (fun room => room)
            (fun x => ensureRoom_fst_rooms st0 r x)
            (fun room hP => hP) (ownerWordPaired_emptyRoom r) ih

/-! ## Closure of presenter membership under the safe transforms -/

theorem presenterIsMember_emptyRoom (r : String) : presenterIsMember (emptyRoom r) := by
  intro sid hs
  simp [emptyRoom] at hs

theorem presenterIsMember_addPlayerRoom {room : Room} (h : presenterIsMember room)
    (sid nm : String) (pick : Nat) : presenterIsMember (addPlayerRoom room sid nm pick) := by
  unfold addPlayerRoom
  split
  · intro s hs
    rcases h s hs with ⟨q, hq, hsid⟩
    rcases mem_playersSet_socketId room.players { socketId := sid, name := nm, score := 0 } q hq
      with ⟨q', hq', hsid'⟩
    exact ⟨q', hq', hsid'.trans hsid⟩
  · intro s hs
    have hs' : some sid = some s := hs
    injection hs' with hs'
    refine ⟨{ socketId := sid, name := nm, score := 0 }, self_mem_playersSet _ _, hs'⟩

theorem checkGuessRoom_players_mem (room : Room) (sid guess : String) (q : Player)
    (hq : q ∈ room.players) :
    ∃ q', q' ∈ (checkGuessRoom room sid guess).players ∧ q'.socketId = q.socketId := by
  unfold checkGuessRoom
  split
  · cases hp : playersGet room.players sid with
    | some p =>
        simp only [hp]
        exact mem_playersSet_socketId room.players { p with score := p.score + 10 } q hq
    | none =>
        simp only [hp]
        exact ⟨q, hq, rfl⟩
  · exact ⟨q, hq, rfl⟩

theorem presenterIsMember_appendShapeRoom {room : Room} (h : presenterIsMember room)
    (shape : Shape) : presenterIsMember (appendShapeRoom room shape) := h

theorem presenterIsMember_checkGuessRoom {room : Room} (h : presenterIsMember room)
    (sid guess : String) : presenterIsMember (checkGuessRoom room sid guess) := by
  intro s hs
  rw [checkGuessRoom_roundOwner] at hs
  rcases h s hs with ⟨q, hq, hsid⟩
  rcases checkGuessRoom_players_mem room sid guess q hq with ⟨q', hq', hsid'⟩
  exact ⟨q', hq', hsid'.trans hsid⟩

theorem presenterIsMember_startNextRoundRoom {room : Room} (h : presenterIsMember room)
    (pick : Nat) : presenterIsMember (startNextRoundRoom room pick) := by
  unfold startNextRoundRoom
  by_cases hz : room.players.length = 0
  · rw [if_pos hz]; exact h
  · rw [if_neg hz]
    intro s hs
    have hs' : some (room.players.getD (nextPresenterIndex room) defaultPlayer).socketId =
        some s := hs
    injection hs' with hs'
    exact ⟨room.players.getD (nextPresenterIndex room) defaultPlayer,
           getD_mem_of_lt _ _ _ (nextPresenterIndex_lt room hz), hs'⟩

/-! ## Stroke-log frame helpers -/

theorem shapesFrame_of_transform (r : String) (f : Room → Room) {st st' : GameState}
    (hrooms : ∀ x, st'.rooms x = if x = r then some (f (ensureRoom st r).2) else st.rooms x)
    (hf : (f (ensureRoom st r).2).shapes = (ensureRoom st r).2.shapes) :
    shapesFrame st st' := by
  intro x room' hx
  rw [hrooms x] at hx
  by_cases hxr : x = r
  · subst hxr
    rw [if_pos rfl] at hx
    injection hx with hx
    subst hx
    cases h0 : st.rooms x with
    | some room0 =>
        refine Or.inl ⟨room0, rfl, ?_⟩
        rw [hf, show (ensureRoom st x).2 = room0 from by rw [ensureRoom_of_some h0]]
    | none =>
        refine Or.inr ⟨rfl, ?_⟩
        rw [hf, show (ensureRoom st x).2 = emptyRoom x from by rw [ensureRoom_of_none h0]]
        rfl
  · rw [if_neg hxr] at hx
    exact Or.inl ⟨room', hx, rfl⟩

theorem shapesFrame_removePlayer (st : GameState) (sid : String) :
    shapesFrame st (removePlayerFromAll st sid) := by
  intro x room' hx
  rw [removePlayerFromAll_rooms] at hx
  cases h0 : st.rooms x with
  | none => rw [h0] at hx; nomatch hx
  | some room0 =>
      rw [h0] at hx
      simp only [Option.map_some'] at hx
      injection hx with hx
      subst hx
      exact Or.inl ⟨room0, rfl, rfl⟩

theorem startNextRound_snd_none_iff (st : GameState) (r : String) (pick : Nat) :
    (startNextRound st r pick).2 = none ↔ (ensureRoom st r).2.players.length = 0 := by
  unfold startNextRound
  by_cases hz : (ensureRoom st r).2.players.length = 0 <;> simp [hz]

theorem startNextRound_snd_of_pos (st : GameState) (r : String) (pick : Nat)
    (h : ¬ (ensureRoom st r).2.players.length = 0) :
    (startNextRound st r pick).2 =
      some ((ensureRoom st r).2.players.getD (nextPresenterIndex (ensureRoom st r).2)
              defaultPlayer,
            pickWord pick) := by
  unfold startNextRound
  simp [h]

/-! ## Claim theorems -/

/-- C1: for every room reachable by any sequence of `GameService` operations
(`addPlayer`, `removePlayerFromAll`, `appendShape`, `checkGuess`,
`startNextRound`, `setCurrentWord`, `ensureRoom`), the presenter field
(`roundOwner`) is set iff the secret field (`currentWord`) is set; no
operation leaves one set and the other unset. -/
theorem C1_presenter_secret_paired (st : GameState) (h : Reachable st)
    (roomId : String) (room : Room) (hr : st.rooms roomId = some room) :
    room.roundOwner.isSome ↔ room.currentWord.isSome :=
  reachable_ownerWordPaired st h roomId room hr

/-- Witness for C1 at the concrete reachable state `stA`. -/
theorem C1_presenter_secret_paired_witness :
    stA.rooms "r" = some { id := "r", players := [{ socketId := "A", name := "a", score := 0 }],
                           shapes := [], currentWord := some "사과", roundOwner := some "A" } ∧
    ((some "A" : Option String).isSome ↔ (some "사과" : Option String).isSome) :=
  ⟨by decide,
   C1_presenter_secret_paired stA
     (Reachable.step initState (Op.addPlayer "r" "A" "a" 0) Reachable.init) "r"
     { id := "r", players := [{ socketId := "A", name := "a", score := 0 }],
       shapes := [], currentWord := some "사과", roundOwner := some "A" } (by decide)⟩

/-- C4 (amended): if the presenter is set it is the socketId of a current
roster member, and every operation except `removePlayerFromAll` and
`setCurrentWord` preserves this invariant (`removePlayerFromAll` can delete
the presenter while leaving `roundOwner` set, and `setCurrentWord` can install
a non-member presenter). -/
theorem C4_presenter_member_preserved (st : GameState) (op : Op)
    (hsafe : presenterSafe op) (hinv : StInv presenterIsMember st) :
    StInv presenterIsMember (applyOp st op) := by
  cases op with
  | addPlayer r sid nm pick =>
      exact stInv_step_of_transform r (fun room => addPlayerRoom room sid nm pick)
        (fun x => addPlayer_rooms st r sid nm pick x)
        (fun room hP => presenterIsMember_addPlayerRoom hP sid nm pick)
        (presenterIsMember_emptyRoom r) hinv
  | removePlayerFromAll sid => exact hsafe.elim
  | appendShape r shape =>
      exact stInv_step_of_transform r (fun room => appendShapeRoom room shape)
        (fun x => appendShape_rooms st r shape x)
        (fun room hP => presenterIsMember_appendShapeRoom hP shape)
        (presenterIsMember_emptyRoom r) hinv
  | checkGuess r sid guess =>
      exact stInv_step_of_transform r (fun room => checkGuessRoom room sid guess)
        (fun x => checkGuess_fst_rooms st r sid guess x)
        (fun room hP => presenterIsMember_checkGuessRoom hP sid guess)
        (presenterIsMember_emptyRoom r) hinv
  | startNextRound r pick =>
      exact stInv_step_of_transform r (fun room => startNextRoundRoom room pick)
        (fun x => startNextRound_fst_rooms st r pick x)
        (fun room hP => presenterIsMember_startNextRoundRoom hP pick)
        (presenterIsMember_emptyRoom r) hinv
  | setCurrentWord r w o => exact hsafe.elim
  | ensureRoom r =>
      exact stInv_step_of_transform r (fun room => room)
        (fun x => ensureRoom_fst_rooms st r x)
        (fun room hP => hP) (presenterIsMember_emptyRoom r) hinv
  | getRoomState r =>
      exact stInv_step_of_transform r (fun room => room)
        (fun x => ensureRoom_fst_rooms st r x)
        (fun room hP => hP) (presenterIsMember_emptyRoom r) hinv

/-- Witness for C4's amended preservation at a concrete safe operation. -/
theorem C4_presenter_member_preserved_witness :
    presenterSafe (Op.appendShape "wr4" 7) ∧
    StInv presenterIsMember (applyOp initState (Op.appendShape "wr4" 7)) :=
  ⟨trivial,
   C4_presenter_member_preserved initState (Op.appendShape "wr4" 7) trivial
     (fun _ _ hr => nomatch hr)⟩

/-- Counterexample to C4 as stated: after `A` joins room `"r"` (becoming
presenter) and then disconnects, the reachable state keeps `roundOwner = "A"`
with an empty roster — the presenter is not a member. -/
theorem C4_presenter_member_counterexample :
    Reachable stRem ∧
    stRem.rooms "r" = some { id := "r", players := [], shapes := [],
                             currentWord := some "사과", roundOwner := some "A" } :=
  ⟨Reachable.step stA (Op.removePlayerFromAll "A")
     (Reachable.step initState (Op.addPlayer "r" "A" "a" 0) Reachable.init),
   by decide⟩

theorem nat_le_of_some_eq {n n' : Nat} (h : (some n : Option Nat) = some n') : n ≤ n' := by
  injection h with h
  omega

/-- C5 (amended): no operation other than an `addPlayer` carrying the player's
own socketId ever decreases that player's observable score; `addPlayer` always
(re)writes the stored score to 0, which is a decrease when re-adding a player
who has already scored. -/
theorem C5_score_monotone_except_readd (st : GameState) (op : Op)
    (roomId sid nm : String) (pick n n' : Nat) :
    (¬ opResets op sid → scoreOf st roomId sid = some n →
       scoreOf (applyOp st op) roomId sid = some n' → n ≤ n') ∧
    scoreOf (applyOp st (Op.addPlayer roomId sid nm pick)) roomId sid = some 0 := by
  constructor
  · intro hop hn hn'
    cases op with
    | addPlayer r s nm' pk =>
        simp only [applyOp] at hn'
        rw [scoreOf_addPlayer_ne st r s nm' pk roomId sid (fun hc => hop hc.symm)] at hn'
        rw [hn] at hn'
        exact nat_le_of_some_eq hn'
    | removePlayerFromAll s =>
        simp only [applyOp] at hn'
        by_cases hss : sid = s
        · subst hss
          rw [scoreOf_removePlayer_self] at hn'
          nomatch hn'
        · rw [scoreOf_removePlayer_ne st s roomId sid hss] at hn'
          rw [hn] at hn'
          exact nat_le_of_some_eq hn'
    | appendShape r shape =>
        simp only [applyOp] at hn'
        rw [scoreOf_appendShape st r shape roomId sid] at hn'
        rw [hn] at hn'
        exact nat_le_of_some_eq hn'
    | checkGuess r s guess =>
        simp only [applyOp] at hn'
        by_cases hss : sid = s
        · subst hss
          rcases scoreOf_checkGuess_self st r sid guess roomId with heq | ⟨m, hm, hm'⟩
          · rw [heq, hn] at hn'
            exact nat_le_of_some_eq hn'
          · have h1 : n = m := Option.some.inj (hn.symm.trans hm)
            have h2 : n' = m + 10 := Option.some.inj (hn'.symm.trans hm')
            omega
        · rw [scoreOf_checkGuess_ne st r s guess roomId sid hss] at hn'
          rw [hn] at hn'
          exact nat_le_of_some_eq hn'
    | startNextRound r pk =>
        simp only [applyOp] at hn'
        rw [scoreOf_startNextRound st r pk roomId sid] at hn'
        rw [hn] at hn'
        exact nat_le_of_some_eq hn'
    | setCurrentWord r w o =>
        simp only [applyOp] at hn'
        rw [scoreOf_setCurrentWord st r w o roomId sid] at hn'
        rw [hn] at hn'
        exact nat_le_of_some_eq hn'
    | ensureRoom r =>
        simp only [applyOp] at hn'
        rw [scoreOf_ensureRoom st r roomId sid] at hn'
        rw [hn] at hn'
        exact nat_le_of_some_eq hn'
    | getRoomState r =>
        simp only [applyOp] at hn'
        rw [show scoreOf (getRoomState st r).1 roomId sid =
            scoreOf (ensureRoom st r).1 roomId sid from rfl,
           scoreOf_ensureRoom st r roomId sid] at hn'
        rw [hn] at hn'
        exact nat_le_of_some_eq hn'
  · exact scoreOf_addPlayer_self st roomId sid nm pick

/-- Witness for C5's amended monotonicity at a concrete state and operation. -/
theorem C5_score_monotone_except_readd_witness :
    ¬ opResets (Op.appendShape "r" 1) "A" ∧
    scoreOf stScored "r" "A" = some 10 ∧
    scoreOf (applyOp stScored (Op.appendShape "r" 1)) "r" "A" = some 10 ∧
    (10 : Nat) ≤ 10 :=
  ⟨fun h => h, by decide, by decide,
   (C5_score_monotone_except_readd stScored (Op.appendShape "r" 1) "r" "A" "a" 0 10 10).1
     (fun h => h) (by decide) (by decide)⟩

/-- Counterexample to C5 as stated: `A` scores 10, then a repeated `addPlayer`
with `A`'s socketId resets the stored score to 0 — a strict decrease along a
reachable operation sequence. -/
theorem C5_counterexample :
    Reachable stReset ∧
    scoreOf stScored "r" "A" = some 10 ∧
    stReset = applyOp stScored (Op.addPlayer "r" "A" "a" 0) ∧
    scoreOf stReset "r" "A" = some 0 :=
  ⟨Reachable.step stScored (Op.addPlayer "r" "A" "a" 0)
     (Reachable.step stA (Op.checkGuess "r" "A" "사과")
        (Reachable.step initState (Op.addPlayer "r" "A" "a" 0) Reachable.init)),
   by decide, rfl, by decide⟩

/-- C9: `ensureRoom` never fails and is idempotent: on an unseen id it creates
and registers a room with empty players, empty stroke log, and unset
presenter/secret (leaving every other key alone); calling it again with the
same id returns the very same room and leaves the registry untouched. -/
theorem C9_ensureRoom_idempotent (st : GameState) (roomId : String) :
    ((emptyRoom roomId).players = [] ∧ (emptyRoom roomId).shapes = [] ∧
     (emptyRoom roomId).currentWord = none ∧ (emptyRoom roomId).roundOwner = none) ∧
    (st.rooms roomId = none →
       (ensureRoom st roomId).2 = emptyRoom roomId ∧
       (ensureRoom st roomId).1.rooms roomId = some (emptyRoom roomId) ∧
       ∀ x, ¬ x = roomId → (ensureRoom st roomId).1.rooms x = st.rooms x) ∧
    ensureRoom (ensureRoom st roomId).1 roomId =
      ((ensureRoom st roomId).1, (ensureRoom st roomId).2) := by
  refine ⟨⟨rfl, rfl, rfl, rfl⟩, ?_, ?_⟩
  · intro h
    rw [ensureRoom_of_none h]
    refine ⟨rfl, ?_, ?_⟩
    · rw [rooms_setRoom]
      simp
    · intro x hx
      rw [rooms_setRoom]
      simp [hx]
  · exact ensureRoom_of_some (ensureRoom_rooms_self st roomId)

/-- Witness for C9 at a fresh registry and an unseen room id. -/
theorem C9_ensureRoom_idempotent_witness :
    initState.rooms "w9" = none ∧
    (ensureRoom initState "w9").2 = emptyRoom "w9" ∧
    ensureRoom (ensureRoom initState "w9").1 "w9" =
      ((ensureRoom initState "w9").1, (ensureRoom initState "w9").2) :=
  ⟨rfl, ((C9_ensureRoom_idempotent initState "w9").2.1 rfl).1,
   (C9_ensureRoom_idempotent initState "w9").2.2⟩

/-- C3: `startNextRound` returns `null` exactly when the (ensured) room has no
players; otherwise the next presenter is the player at index `(i+1) mod n` in
the roster's iteration order, where `i` is the index of the current presenter;
if the current presenter is no longer a member the player at index 0 is
chosen; in a one-player room the sole player becomes presenter again. -/
theorem C3_round_robin (st : GameState) (roomId : String) (pick : Nat) :
    ((startNextRound st roomId pick).2 = none ↔ (ensureRoom st roomId).2.players = []) ∧
    (∀ i, i < (ensureRoom st roomId).2.players.length →
       (ensureRoom st roomId).2.roundOwner =
         some (((ensureRoom st roomId).2.players.getD i defaultPlayer).socketId) →
       (∀ j, j < i → ¬ (ensureRoom st roomId).2.roundOwner =
         some (((ensureRoom st roomId).2.players.getD j defaultPlayer).socketId)) →
       (startNextRound st roomId pick).2 =
         some ((ensureRoom st roomId).2.players.getD
                 ((i + 1) % (ensureRoom st roomId).2.players.length) defaultPlayer,
               pickWord pick)) ∧
    ((∀ p ∈ (ensureRoom st roomId).2.players,
        ¬ (ensureRoom st roomId).2.roundOwner = some p.socketId) →
     ¬ (ensureRoom st roomId).2.players = [] →
     (startNextRound st roomId pick).2 =
       some ((ensureRoom st roomId).2.players.getD 0 defaultPlayer, pickWord pick)) ∧
    (∀ q, (ensureRoom st roomId).2.players = [q] →
       (startNextRound st roomId pick).2 = some (q, pickWord pick)) := by
  refine ⟨?_, ?_, ?_, ?_⟩
  · rw [startNextRound_snd_none_iff]
    exact List.length_eq_zero
  · intro i hi howner hfirst
    have hz : ¬ (ensureRoom st roomId).2.players.length = 0 := by omega
    rw [startNextRound_snd_of_pos st roomId pick hz]
    have hidx : nextPresenterIndex (ensureRoom st roomId).2 =
        (i + 1) % (ensureRoom st roomId).2.players.length := by
      unfold nextPresenterIndex
      rw [listFindIdx?_eq_some hi ?hp ?hf]
      case hp => simp only [decide_eq_true_eq]; exact howner
      case hf =>
        intro j hj
        simp only [decide_eq_false_iff_not]
        exact hfirst j hj
    rw [hidx]
  · intro hnone hne
    have hz : ¬ (ensureRoom st roomId).2.players.length = 0 :=
      fun h => hne (List.length_eq_zero.mp h)
    rw [startNextRound_snd_of_pos st roomId pick hz]
    have hidx : nextPresenterIndex (ensureRoom st roomId).2 = 0 := by
      unfold nextPresenterIndex
      rw [listFindIdx?_eq_none ?h]
      case h =>
        intro p hp
        simp only [decide_eq_false_iff_not]
        exact hnone p hp
    rw [hidx]
  · intro q hq
    have hz : ¬ (ensureRoom st roomId).2.players.length = 0 := by
      rw [hq]
      simp
    rw [startNextRound_snd_of_pos st roomId pick hz]
    have hlt := nextPresenterIndex_lt (ensureRoom st roomId).2 hz
    rw [hq] at hlt
    have h0 : nextPresenterIndex (ensureRoom st roomId).2 = 0 := by
      simp only [List.length_singleton] at hlt
      omega
    rw [h0, hq]
    rfl

/-- Witness for C3 at the concrete roster `[A, B, C]` with current presenter
`B`: the next presenter is `C`. -/
theorem C3_round_robin_witness :
    (ensureRoom stRobin "r").2.roundOwner =
      some (((ensureRoom stRobin "r").2.players.getD 1 defaultPlayer).socketId) ∧
    (startNextRound stRobin "r" 0).2 =
      some ({ socketId := "C", name := "c", score := 0 }, "사과") := by
  refine ⟨by decide, ?_⟩
  have h := (C3_round_robin stRobin "r" 0).2.1 1 (by decide) (by decide) ?hf
  · exact h.trans (by decide)
  case hf =>
    intro j hj
    have hj0 : j = 0 := Nat.lt_one_iff.mp hj
    subst hj0
    decide

/-- C8: the stroke log is cleared exactly at a successful round start:
`appendShape` appends exactly one element at the end, a non-`null`
`startNextRound` resets the log to empty, and every other operation
(`addPlayer`, `removePlayerFromAll`, `checkGuess`, `getRoomState`,
`setCurrentWord`, `ensureRoom`) leaves every room's stroke log exactly as it
was (rooms lazily created along the way start with an empty log). -/
theorem C8_strokes_frame (st : GameState) (r x : String) (shape : Shape) (pick : Nat)
    (sid nm w o guess : String) :
    (((appendShape st r shape).rooms r).map Room.shapes =
       some ((ensureRoom st r).2.shapes ++ [shape]) ∧
     (¬ x = r → (appendShape st r shape).rooms x = st.rooms x)) ∧
    ((¬ (startNextRound st r pick).2 = none →
        ((startNextRound st r pick).1.rooms r).map Room.shapes = some []) ∧
     ((startNextRound st r pick).2 = none →
        shapesFrame st (startNextRound st r pick).1) ∧
     (¬ x = r → (startNextRound st r pick).1.rooms x = st.rooms x)) ∧
    shapesFrame st (addPlayer st r sid nm pick) ∧
    shapesFrame st (removePlayerFromAll st sid) ∧
    shapesFrame st (checkGuess st r sid guess).1 ∧
    shapesFrame st (getRoomState st r).1 ∧
    shapesFrame st (setCurrentWord st r w o) ∧
    shapesFrame st (ensureRoom st r).1 := by
  refine ⟨⟨?_, ?_⟩, ⟨?_, ?_, ?_⟩, ?_, ?_, ?_, ?_, ?_, ?_⟩
  · rw [appendShape_rooms, if_pos rfl]
    rfl
  · intro hx
    rw [appendShape_rooms, if_neg hx]
  · intro hnn
    have hz : ¬ (ensureRoom st r).2.players.length = 0 :=
      fun h => hnn ((startNextRound_snd_none_iff st r pick).mpr h)
    rw [startNextRound_fst_rooms, if_pos rfl]
    simp only [Option.map_some']
    rw [startNextRoundRoom_shapes_of_pos _ _ hz]
  · intro hn
    have hz : (ensureRoom st r).2.players.length = 0 :=
      (startNextRound_snd_none_iff st r pick).mp hn
    refine shapesFrame_of_transform r (fun room => startNextRoundRoom room pick)
      (fun y => startNextRound_fst_rooms st r pick y) ?_
    show (startNextRoundRoom (ensureRoom st r).2 pick).shapes = (ensureRoom st r).2.shapes
    unfold startNextRoundRoom
    rw [if_pos hz]
  · intro hx
    rw [startNextRound_fst_rooms, if_neg hx]
  · exact shapesFrame_of_transform r (fun room => addPlayerRoom room sid nm pick)
      (fun y => addPlayer_rooms st r sid nm pick y) (addPlayerRoom_shapes _ _ _ _)
  · exact shapesFrame_removePlayer st sid
  · exact shapesFrame_of_transform r (fun room => checkGuessRoom room sid guess)
      (fun y => checkGuess_fst_rooms st r sid guess y) (checkGuessRoom_shapes _ _ _)
  · exact shapesFrame_of_transform r (fun room => room)
      (fun y => ensureRoom_fst_rooms st r y) rfl
  · exact shapesFrame_of_transform r (fun room => setWordRoom room w o)
      (fun y => setCurrentWord_rooms st r w o y) rfl
  · exact shapesFrame_of_transform r (fun room => room)
      (fun y => ensureRoom_fst_rooms st r y) rfl

/-- Witness for C8 at a concrete state: appending stores the shape, and a
successful round start clears the log. -/
theorem C8_strokes_frame_witness :
    ((appendShape stA "r" 5).rooms "r").map Room.shapes = some [5] ∧
    ¬ (startNextRound (appendShape stA "r" 5) "r" 0).2 = none ∧
    ((startNextRound (appendShape stA "r" 5) "r" 0).1.rooms "r").map Room.shapes =
      some [] := by
  refine ⟨?_, by decide, ?_⟩
  · exact ((C8_strokes_frame stA "r" "x" 5 0 "A" "a" "w" "o" "g").1.1).trans (by decide)
  · exact ((C8_strokes_frame (appendShape stA "r" 5) "r" "x" 5 0 "A" "a" "w" "o" "g").2.1).1
      (by decide)

/-- C2 (amended): `checkGuess` returns `{correct: false}` whenever the room's
secret is unset **or is the empty string** (JS truthiness); otherwise it
compares secret and guess after trimming and lowercasing, returning
`correct: true` exactly on equality of the normalized strings; on a match by a
roster member it adds exactly 10 to that member's score, returns the new
score, and touches no other player, field, or room; on a non-match it changes
no state at all. -/
theorem C2_checkGuess_characterization (st : GameState) (roomId sid guess : String) :
    (strTruthy (ensureRoom st roomId).2.currentWord = false →
       checkGuess st roomId sid guess = ((ensureRoom st roomId).1, GuessResult.incorrect)) ∧
    (∀ w, (ensureRoom st roomId).2.currentWord = some w → ¬ w = "" →
       (¬ normalizeGuess w = normalizeGuess guess →
          checkGuess st roomId sid guess = (st, GuessResult.incorrect)) ∧
       (normalizeGuess w = normalizeGuess guess →
          (∀ p, playersGet (ensureRoom st roomId).2.players sid = some p →
             (checkGuess st roomId sid guess).2 =
               GuessResult.correctRes (some p.name) (p.score + 10) ∧
             scoreOf (checkGuess st roomId sid guess).1 roomId sid = some (p.score + 10) ∧
             (∀ s, ¬ s = sid →
                scoreOf (checkGuess st roomId sid guess).1 roomId s = scoreOf st roomId s) ∧
             (∀ x, ¬ x = roomId →
                (checkGuess st roomId sid guess).1.rooms x = st.rooms x) ∧
             ((checkGuess st roomId sid guess).1.rooms roomId).map Room.currentWord =
               some (some w) ∧
             ((checkGuess st roomId sid guess).1.rooms roomId).map Room.shapes =
               some (ensureRoom st roomId).2.shapes) ∧
          (playersGet (ensureRoom st roomId).2.players sid = none →
             checkGuess st roomId sid guess = (st, GuessResult.correctRes none 0)))) := by
  refine ⟨checkGuess_falsy st roomId sid guess, ?_⟩
  intro w hw hne
  refine ⟨fun hm => checkGuess_nomatch st roomId sid guess w hw hne hm, fun hm => ⟨?_, ?_⟩⟩
  · intro p hp
    have hcg := checkGuess_match_mem st roomId sid guess w p hw hne hm hp
    have h2 : (checkGuess st roomId sid guess).2 =
        GuessResult.correctRes (some p.name) (p.score + 10) := congrArg Prod.snd hcg
    have h1 : (checkGuess st roomId sid guess).1 =
        setRoom st roomId
          { (ensureRoom st roomId).2 with
              players := playersSet (ensureRoom st roomId).2.players
                { p with score := p.score + 10 } } := congrArg Prod.fst hcg
    refine ⟨h2, ?_, ?_, ?_, ?_, ?_⟩
    · rw [scoreOf_def, h1, rooms_setRoom, if_pos rfl]
      simp only [Option.some_bind]
      have hps : p.socketId = sid := playersGet_socketId hp
      have hX : ({ p with score := p.score + 10 } : Player).socketId = sid := hps
      show (playersGet (playersSet (ensureRoom st roomId).2.players
          { p with score := p.score + 10 }) sid).map Player.score = some (p.score + 10)
      rw [playersGet_set_key _ _ _ hX]
      rfl
    · intro s hs
      exact scoreOf_checkGuess_ne st roomId sid guess roomId s hs
    · intro x hx
      rw [checkGuess_fst_rooms, if_neg hx]
    · rw [h1, rooms_setRoom, if_pos rfl]
      simp only [Option.map_some']
      show some (ensureRoom st roomId).2.currentWord = some (some w)
      rw [hw]
    · rw [h1, rooms_setRoom, if_pos rfl]
      simp only [Option.map_some']
  · intro hp
    exact checkGuess_match_nonmem st roomId sid guess w hw hne hm hp

/-- Witness for C2 at the spec's example: secret `"Apple "`, guess `"apple"`,
guesser `G` a member with score 0. -/
theorem C2_checkGuess_characterization_witness :
    (ensureRoom stApple "w2").2.currentWord = some "Apple " ∧
    normalizeGuess "Apple " = normalizeGuess "apple" ∧
    playersGet (ensureRoom stApple "w2").2.players "G" =
      some { socketId := "G", name := "g", score := 0 } ∧
    (checkGuess stApple "w2" "G" "apple").2 = GuessResult.correctRes (some "g") 10 ∧
    scoreOf (checkGuess stApple "w2" "G" "apple").1 "w2" "G" = some 10 := by
  have h := (((C2_checkGuess_characterization stApple "w2" "G" "apple").2 "Apple "
    (by decide) (by decide)).2 (by decide)).1
    { socketId := "G", name := "g", score := 0 } (by decide)
  exact ⟨by decide, by decide, by decide, h.1, h.2.1⟩

/-- Counterexample to C2 as stated: a room whose secret is present but equal
to `""`; the normalized guess `" "` equals the normalized secret, yet
`checkGuess` reports `{correct: false}` because JS treats `""` as "no secret
set". -/
theorem C2_counterexample :
    (stEmptyWordC2.rooms "cx").map Room.currentWord = some (some "") ∧
    normalizeGuess "" = normalizeGuess " " ∧
    (checkGuess stEmptyWordC2 "cx" "B" " ").2 = GuessResult.incorrect :=
  ⟨by decide, by decide, by decide⟩

/-- C10 (amended): with a nonempty secret set, a `checkGuess` by a socketId
that is not a roster member whose normalized guess equals the normalized
secret returns `{correct: true, playerName: undefined, score: 0}` and changes
nothing: the returned state is exactly the input state. -/
theorem C10_nonmember_correct_guess (st : GameState) (roomId sid guess w : String)
    (hw : (ensureRoom st roomId).2.currentWord = some w) (hne : ¬ w = "")
    (hp : playersGet (ensureRoom st roomId).2.players sid = none)
    (hm : normalizeGuess w = normalizeGuess guess) :
    checkGuess st roomId sid guess = (st, GuessResult.correctRes none 0) :=
  checkGuess_match_nonmem st roomId sid guess w hw hne hm hp

/-- Witness for C10: room `"wr"` with secret `"Apple "` and no members; the
non-member `ghost` guesses `" apple"`. -/
theorem C10_nonmember_correct_guess_witness :
    (ensureRoom stNonMember "wr").2.currentWord = some "Apple " ∧
    playersGet (ensureRoom stNonMember "wr").2.players "ghost" = none ∧
    normalizeGuess "Apple " = normalizeGuess " apple" ∧
    checkGuess stNonMember "wr" "ghost" " apple" =
      (stNonMember, GuessResult.correctRes none 0) :=
  ⟨by decide, by decide, by decide,
   C10_nonmember_correct_guess stNonMember "wr" "ghost" " apple" "Apple " (by decide)
     (by decide) (by decide) (by decide)⟩

/-- Counterexample to C10 as stated: with the secret present but equal to
`""`, a non-member whose normalized guess equals the normalized secret still
gets `{correct: false}`. -/
theorem C10_counterexample :
    (stEmptyWordC10.rooms "er").map Room.currentWord = some (some "") ∧
    playersGet (ensureRoom stEmptyWordC10 "er").2.players "ghost" = none ∧
    normalizeGuess "" = normalizeGuess "  " ∧
    (checkGuess stEmptyWordC10 "er" "ghost" "  ").2 = GuessResult.incorrect :=
  ⟨by decide, by decide, by decide, by decide⟩

/-! ## `onJoin` emission analysis -/

theorem onJoin_fst (st : GameState) (roomId clientId userName : String) (pick : Nat) :
    (onJoin st roomId clientId userName pick).1 =
      (getRoomState (addPlayer st roomId clientId userName pick) roomId).1 := by
  unfold onJoin
  rcases hfind : (getRoomState (addPlayer st roomId clientId userName pick) roomId).2.players.find?
      (fun p => decide (some p.socketId =
        (getRoomState (addPlayer st roomId clientId userName pick) roomId).2.roundOwner))
    with _ | pr
  · simp only [hfind]
  · simp only [hfind]
    rcases hw : getCurrentWord
        (getRoomState (addPlayer st roomId clientId userName pick) roomId).1 roomId
      with _ | wd
    · simp only [hw]
    · simp only [hw]
      by_cases hwb : (wd != "") = true
      · rw [if_pos hwb]
      · rw [if_neg hwb]

/-- The registry entry for the joined room after `onJoin`, projected to the
owner, is exactly the owner reported by the snapshot taken inside `onJoin`. -/
theorem onJoin_rooms_roundOwner (st : GameState) (roomId clientId userName : String)
    (pick : Nat) :
    ((onJoin st roomId clientId userName pick).1.rooms roomId).map Room.roundOwner =
      some ((getRoomState (addPlayer st roomId clientId userName pick) roomId).2.roundOwner) := by
  rw [onJoin_fst, getRoomState_fst]
  have hst1 : (addPlayer st roomId clientId userName pick).rooms roomId =
      some (addPlayerRoom (ensureRoom st roomId).2 clientId userName pick) := by
    rw [addPlayer_rooms, if_pos rfl]
  rw [show (getRoomState (addPlayer st roomId clientId userName pick) roomId).2.roundOwner =
      (ensureRoom (addPlayer st roomId clientId userName pick) roomId).2.roundOwner from rfl]
  rw [ensureRoom_of_some hst1, hst1]
  rfl

/-- Any `roundStarted` emission produced by `onJoin` is addressed to the
socketId stored as the room's presenter. -/
theorem onJoin_roundStarted_target (st : GameState) (roomId clientId userName : String)
    (pick : Nat) (e : Emission) (he : e ∈ (onJoin st roomId clientId userName pick).2)
    (tgt w : String) (hrs : e = Emission.roundStarted tgt w) :
    (getRoomState (addPlayer st roomId clientId userName pick) roomId).2.roundOwner =
      some tgt := by
  simp only [onJoin] at he
  rcases hfind : (getRoomState (addPlayer st roomId clientId userName pick) roomId).2.players.find?
      (fun p => decide (some p.socketId =
        (getRoomState (addPlayer st roomId clientId userName pick) roomId).2.roundOwner))
    with _ | pr
  · simp only [hfind] at he
    subst hrs
    simp at he
  · simp only [hfind] at he
    rcases hw : getCurrentWord
        (getRoomState (addPlayer st roomId clientId userName pick) roomId).1 roomId
      with _ | wd
    · simp only [hw] at he
      subst hrs
      simp at he
    · simp only [hw] at he
      by_cases hwb : (wd != "") = true
      · rw [if_pos hwb] at he
        subst hrs
        simp only [List.append_assoc, List.mem_append, List.mem_cons,
                   List.mem_singleton, List.not_mem_nil, or_false] at he
        rcases he with (he | he) | he | he
        · nomatch he
        · nomatch he
        · nomatch he
        · have htgt : pr.socketId = tgt := by
            injection he.symm with h1 h2
          have hfound := List.find?_some hfind
          rw [decide_eq_true_eq] at hfound
          rw [← htgt]
          exact hfound.symm
      · rw [if_neg hwb] at he
        subst hrs
        simp at he

/-- C6 (amended): the snapshot returned by `getRoomState` carries the players,
strokes and presenter id verbatim, and in place of the secret only the boolean
of whether a nonempty secret is set (an empty-string secret reports `false`);
in `onJoin`, the secret string itself travels only in a `roundStarted`
emission addressed to the presenter's own socket. -/
theorem C6_snapshot_hides_secret (st : GameState) (roomId clientId userName : String)
    (pick : Nat) :
    ((getRoomState st roomId).2.currentWord = true ↔
       ∃ w, (ensureRoom st roomId).2.currentWord = some w ∧ ¬ w = "") ∧
    (getRoomState st roomId).2.players = (ensureRoom st roomId).2.players ∧
    (getRoomState st roomId).2.shapes = (ensureRoom st roomId).2.shapes ∧
    (getRoomState st roomId).2.roundOwner = (ensureRoom st roomId).2.roundOwner ∧
    (∀ e, e ∈ (onJoin st roomId clientId userName pick).2 → ∀ tgt w,
       e = Emission.roundStarted tgt w →
       ((onJoin st roomId clientId userName pick).1.rooms roomId).map Room.roundOwner =
         some (some tgt)) := by
  refine ⟨?_, rfl, rfl, rfl, ?_⟩
  · show strTruthy (ensureRoom st roomId).2.currentWord = true ↔ _
    exact strTruthy_eq_true_iff _
  · intro e he tgt w hrs
    rw [onJoin_rooms_roundOwner,
        onJoin_roundStarted_target st roomId clientId userName pick e he tgt w hrs]

/-- Witness for C6: `A` joins the empty room `"r"`, becomes presenter, and the
`roundStarted` emission carrying the secret is addressed to `A`. -/
theorem C6_snapshot_hides_secret_witness :
    Emission.roundStarted "A" "사과" ∈ (onJoin initState "r" "A" "a" 0).2 ∧
    ((onJoin initState "r" "A" "a" 0).1.rooms "r").map Room.roundOwner =
      some (some "A") :=
  ⟨by decide,
   (C6_snapshot_hides_secret initState "r" "A" "a" 0).2.2.2.2
     (Emission.roundStarted "A" "사과") (by decide) "A" "사과" rfl⟩

/-- Counterexample to C6 as stated: with the secret present but equal to `""`,
the snapshot's boolean is `false` although a secret *is* set. -/
theorem C6_counterexample :
    (stEmptyWordC6.rooms "emptyroom").map Room.currentWord = some (some "") ∧
    (getRoomState stEmptyWordC6 "emptyroom").2.currentWord = false :=
  ⟨by decide, by decide⟩

/-- C7 (amended): a draw event from a connection that is not the room's
presenter relays nothing, surfaces no error, and leaves every existing room
untouched — though naming an unseen roomId lazily registers an empty room; a
draw event by the presenter appends exactly one record to that room's stroke
log, changes nothing else, and relays a single `drawing:remote` event. -/
theorem C7_draw_authorization (st : GameState) (roomId clientId : String) (data : Shape) :
    (¬ (getRoomState st roomId).2.roundOwner = some clientId →
       (onDraw st roomId clientId data).2 = [] ∧
       (onDraw st roomId clientId data).1 = (ensureRoom st roomId).1 ∧
       (∀ room, st.rooms roomId = some room → (ensureRoom st roomId).1 = st)) ∧
    ((getRoomState st roomId).2.roundOwner = some clientId →
       (st.rooms roomId).isSome = true ∧
       (onDraw st roomId clientId data).2 = [Emission.drawingRemote roomId clientId data] ∧
       (∀ room, st.rooms roomId = some room →
          (onDraw st roomId clientId data).1.rooms roomId =
            some { room with shapes := room.shapes ++ [data] } ∧
          (∀ x, ¬ x = roomId → (onDraw st roomId clientId data).1.rooms x = st.rooms x))) := by
  constructor
  · intro h
    have hneg : ¬ (getRoomState st roomId).2.roundOwner = some clientId := h
    refine ⟨?_, ?_, ?_⟩
    · unfold onDraw
      rw [if_neg hneg]
    · unfold onDraw
      rw [if_neg hneg]
      rfl
    · intro room hr
      rw [ensureRoom_of_some hr]
  · intro h
    have hrs : (ensureRoom st roomId).2.roundOwner = some clientId := h
    have hsome : (st.rooms roomId).isSome = true := by
      cases hr : st.rooms roomId with
      | some room => rfl
      | none =>
          rw [ensureRoom_of_none hr] at hrs
          simp [emptyRoom] at hrs
    refine ⟨hsome, ?_, ?_⟩
    · unfold onDraw
      rw [if_pos h]
    · intro room hr
      have he : ensureRoom st roomId = (st, room) := ensureRoom_of_some hr
      have h1 : (onDraw st roomId clientId data).1 = appendShape st roomId data := by
        unfold onDraw
        rw [if_pos h, getRoomState_fst, he]
      constructor
      · rw [h1, appendShape_rooms, if_pos rfl, he]
        rfl
      · intro x hx
        rw [h1, appendShape_rooms, if_neg hx]

/-- Witness for C7: in `stA` the presenter is `A`; a draw by `A` appends the
single shape `7` and relays one event, and a draw by non-presenter `B`
changes nothing and relays nothing. -/
theorem C7_draw_authorization_witness :
    (getRoomState stA "r").2.roundOwner = some "A" ∧
    (onDraw stA "r" "A" 7).2 = [Emission.drawingRemote "r" "A" 7] ∧
    (onDraw stA "r" "A" 7).1.rooms "r" =
      some { id := "r", players := [{ socketId := "A", name := "a", score := 0 }],
             shapes := [7], currentWord := some "사과", roundOwner := some "A" } ∧
    (onDraw stA "r" "B" 7).2 = [] := by
  have hmem : stA.rooms "r" =
      some { id := "r", players := [{ socketId := "A", name := "a", score := 0 }],
             shapes := [], currentWord := some "사과", roundOwner := some "A" } := by decide
  have h := (C7_draw_authorization stA "r" "A" 7).2 (by decide)
  have h' := (C7_draw_authorization stA "r" "B" 7).1 (by decide)
  refine ⟨by decide, h.2.1, ?_, h'.1⟩
  exact (h.2.2 _ hmem).1

/-- Counterexample to C7 as stated: a non-presenter draw naming an unseen
roomId does change room state — it lazily registers a fresh empty room. -/
theorem C7_counterexample :
    initState.rooms "newroom" = none ∧
    (onDraw initState "newroom" "ghost" 3).2 = [] ∧
    (onDraw initState "newroom" "ghost" 3).1.rooms "newroom" =
      some (emptyRoom "newroom") :=
  ⟨rfl, by decide, by decide⟩

end CatchMind
